import Mathlib

/-!
Shallow embedding of the filtering engine of `bot/exts/filtering`:
the per-rule relevance algorithm (`FilterList.filter_list_result`,
`bot/exts/filtering/_filter_lists/filter_list.py`), list loading
(`add_list`, `add_filter`, `cog_load`), and the dispatcher's action
aggregation (`_resolve_action`, `subscribe`,
`bot/exts/filtering/filtering.py`).

Python conventions mapped to Lean:
* Python `dict` values iterated in insertion order are modelled as
  association lists `List (κ × α)` (`lookupA`/`lookupName` for `d.get(k)`,
  in-place update for assignment to an existing key, append for a new key).
* Python strings are modelled as `List Char`; `s.endswith("s")` becomes
  `s.getLast? = some 's'` and `s[:-1]` becomes `s.dropLast`.
* Python `set` values are modelled as `Finset ℕ` (setting identities are
  numbered); Python's `<` on sets is the strict subset `⊂`, `<=` is `⊆`.
* A fallible call is `Except`/`Option`; a caught-and-logged exception
  leaves the state unchanged.
-/

namespace Bot

/-- Modelled from the spec: the `Event` enum of
`bot/exts/filtering/_filter_context.py` is not in the sources; the spec
lists event kinds "MESSAGE, MESSAGE_EDIT, ATTACHMENT…". -/
inductive Event where
  | message
  | message_edit
  | attachment
deriving DecidableEq

/-- `ListType` enum from `filter_list.py`: DENY = 0, ALLOW = 1. -/
inductive ListType where
  | DENY
  | ALLOW
deriving DecidableEq

/-- Modelled from the spec: `ActionSettings`
(`bot/exts/filtering/_settings.py` is not in the sources).  Per the spec, an
actions group resolves its merge per setting-name: a name defined on only
one side is taken from that side, a name defined on both sides is combined
by a setting-type-specific rule — "boolean flags OR, numeric durations MAX,
message-to-send concatenated".  One representative setting of each of the
three example kinds is carried; `none` means the setting is unset. -/
structure ActionSettings where
  flag : Option Bool
  duration : Option Nat
  messages : Option (List Nat)
deriving DecidableEq

/-- Per-name resolution of the merge: one side unset takes the other side,
both set applies the combining rule `op`. -/
def combineOpt (op : α → α → α) : Option α → Option α → Option α
  | none, b => b
  | some a, none => some a
  | some a, some b => some (op a b)

/-- Modelled from the spec: the binary merge `A ⊕ B` of two `ActionSettings`
(`ActionSettings.__or__` in `bot/exts/filtering/_settings.py`, applied by
`filtering.py` as `operator.or_`), per the spec's §4.1 per-name resolution
with the spec's example combining rules per setting type. -/
def mergeActions (A B : ActionSettings) : ActionSettings where
  flag := combineOpt or A.flag B.flag
  duration := combineOpt max A.duration B.duration
  messages := combineOpt (· ++ ·) A.messages B.messages

/-- The empty / no-op `ActionSettings`: every setting unset. -/
def noOpAction : ActionSettings := ⟨none, none, none⟩

/-- Modelled from the spec: a single validation setting
(`bot/exts/filtering/_settings.py` is not in the sources).  A setting has an
identity and a boolean predicate over the context. -/
structure VSetting (Ctx : Type) where
  name : Nat
  evaluate : Ctx → Bool

/-- Modelled from the spec: a `ValidationSettings` group is a collection of
validation settings with unique identities. -/
structure ValidationSettings (Ctx : Type) where
  settings : List (VSetting Ctx)

/-- Modelled from the spec: `ValidationSettings.evaluate` calls every
contained validation setting on the context and partitions their identities
into the pair (passed set, failed set). -/
def ValidationSettings.evaluate (vs : ValidationSettings Ctx) (ctx : Ctx) :
    Finset ℕ × Finset ℕ :=
  (((vs.settings.filter fun s => s.evaluate ctx).map VSetting.name).toFinset,
   ((vs.settings.filter fun s => !s.evaluate ctx).map VSetting.name).toFinset)

/-- A `Filter` (one rule) from `bot/exts/filtering/_filters/filter.py`
(constructor not in the sources; fields per the spec's data model):
an id, a content pattern, an optional description, optional validation and
action overrides, and the content-matcher `triggered_on`.  A rule whose
overrides group is absent is represented with `none`; note that Python's
truthiness check `not filter_.validations` is false both for `None` and for
an empty settings group. -/
structure Filter (Ctx : Type) where
  id : Nat
  content : List Char
  description : Option (List Char)
  validations : Option (ValidationSettings Ctx)
  actions : Option ActionSettings
  triggered_on : Ctx → Bool

/-- `FilterList.filter_list_result` (static method,
`filter_list.py` lines 80-111): evaluate the list-type's default
validations on the context, let `default_answer` be "no default failed",
then keep each filter that is relevant and triggers:
* a filter with no overrides (Python-falsy `filter_.validations`, i.e.
  absent or empty) is relevant iff `default_answer`;
* otherwise its overrides are evaluated and the filter is relevant iff no
  override failed and `failed_by_default < passed` — Python's strict subset
  on sets.
The `filters` argument stands for the values of the `dict[int, Filter]` in
iteration order. -/
def FilterList.filter_list_result (ctx : Ctx) (filters : List (Filter Ctx))
    (defaults : ValidationSettings Ctx) : List (Filter Ctx) :=
  let pf := defaults.evaluate ctx
  let failed_by_default := pf.2
  let default_answer : Bool := decide (failed_by_default = ∅)
  filters.filter fun filt =>
    if (filt.validations.getD ⟨[]⟩).settings.isEmpty then
      default_answer && filt.triggered_on ctx
    else
      let po := (filt.validations.getD ⟨[]⟩).evaluate ctx
      decide (po.2 = ∅) && decide (failed_by_default ⊂ po.1) && filt.triggered_on ctx

/-- A raw single-filter record as received from the definition source
(`filter_data` in `filter_list.py`).  A missing required field is `none`;
`triggers` carries the semantics the constructed filter's content-matcher
will have (the matcher itself lives in filter-type subclasses outside the
sources). -/
structure FilterData (Ctx : Type) where
  id : Option Nat
  content : Option (List Char)
  description : Option (List Char)
  validations : Option (ValidationSettings Ctx)
  actions : Option ActionSettings
  triggers : Ctx → Bool

/-- Modelled from the spec: the `Filter` constructor
(`bot/exts/filtering/_filters/filter.py` is not in the sources).  Per the
spec's error taxonomy, a malformed record — here, a missing required field
(`id` or `content`) — makes construction fail (the `TypeError` caught by
`add_filter`); a well-formed record yields the filter keyed by its id. -/
def mkFilter (filter_data : FilterData Ctx) : Option (Nat × Filter Ctx) :=
  match filter_data.id, filter_data.content with
  | some i, some c =>
      some (i, ⟨i, c, filter_data.description, filter_data.validations,
                filter_data.actions, filter_data.triggers⟩)
  | _, _ => none

/-- The parsed default settings of one list type: the pair produced by
`create_settings(list_data["settings"], keep_empty=True)` and stored as
`{"actions": ..., "validations": ...}`. -/
structure Defaults (Ctx : Type) where
  actions : ActionSettings
  validations : ValidationSettings Ctx

/-- A raw filter-list record from the definition source
(`raw_filter_list` / `list_data`): name, list type, issued list id, default
settings and the list of raw filter records.  The raw `settings` field is
carried already parsed (`create_settings` lives outside the sources). -/
structure ListData (Ctx : Type) where
  name : List Char
  list_type : ListType
  id : Nat
  settings : Defaults Ctx
  filters : List (FilterData Ctx)

/-- Lookup in an association list with ℕ keys (`d.get(k)` on a
`dict[int, Filter]`). -/
def lookupA (m : List (Nat × α)) (k : Nat) : Option α :=
  match m with
  | [] => none
  | p :: rest => if p.1 = k then some p.2 else lookupA rest k

/-- Assignment `d[k] = v` on a `dict[int, α]`: an existing key is updated in
place, a new key is appended. -/
def insertA (m : List (Nat × α)) (k : Nat) (v : α) : List (Nat × α) :=
  if (lookupA m k).isSome then m.map fun p => if p.1 = k then (k, v) else p
  else m ++ [(k, v)]

/-- Pointwise update of a `ListType`-keyed dict (both its keys fit in a
total function to `Option`). -/
def setLT (f : ListType → Option α) (lt : ListType) (v : Option α) :
    ListType → Option α :=
  fun x => if x = lt then v else f x

/-- The mutable state of a `FilterList` instance (`filter_list.py`
`__init__`): per list type, the issued list id, the `dict` of filters keyed
by filter id, and the default settings.  A list type not yet loaded maps to
`none`. -/
structure FilterList (Ctx : Type) where
  list_ids : ListType → Option Nat
  filter_lists : ListType → Option (List (Nat × Filter Ctx))
  defaults : ListType → Option (Defaults Ctx)

/-- A fresh `FilterList` as built by `__init__`: all three dicts empty. -/
def FilterList.init : FilterList Ctx :=
  ⟨fun _ => none, fun _ => none, fun _ => none⟩

/-- `FilterList.add_filter` (`filter_list.py` lines 64-69): construct the
filter from the record and store it under its id in
`filter_lists[list_type]`.  A `TypeError` from the constructor (malformed
record) is caught and logged, leaving the state unchanged; a missing
`list_type` key would raise an uncaught `KeyError`, modelled as `.error`. -/
def FilterList.add_filter (fl : FilterList Ctx) (filter_data : FilterData Ctx)
    (list_type : ListType) : Except Unit (FilterList Ctx) :=
  match mkFilter filter_data with
  | none => .ok fl
  | some (i, filt) =>
    match fl.filter_lists list_type with
    | none => .error ()
    | some m =>
      .ok { fl with filter_lists := setLT fl.filter_lists list_type (some (insertA m i filt)) }

/-- `FilterList.add_list` (`filter_list.py` lines 53-62): store the parsed
defaults and the issued id for the list type, reset
`filter_lists[list_type]` to an empty dict, then `add_filter` each raw
record.  The `add_filter` calls cannot raise here (the list type was just
initialised), so the `Except` fallback to the unchanged state is never
taken. -/
def FilterList.add_list (fl : FilterList Ctx) (list_data : ListData Ctx) :
    FilterList Ctx :=
  let lt := list_data.list_type
  let st : FilterList Ctx :=
    { list_ids := setLT fl.list_ids lt (some list_data.id)
      filter_lists := setLT fl.filter_lists lt (some [])
      defaults := setLT fl.defaults lt (some list_data.settings) }
  list_data.filters.foldl (fun s fd => ((s.add_filter fd lt).toOption).getD s) st

/-- The filter dict contents produced by loading the given raw records into
an empty dict (the effect of `add_list`'s loop): malformed records are
skipped, well-formed ones inserted under their id. -/
def buildFilters (fds : List (FilterData Ctx)) : List (Nat × Filter Ctx) :=
  fds.foldl
    (fun m fd => match mkFilter fd with
      | none => m
      | some (i, filt) => insertA m i filt) []

/-- Lookup in an association list keyed by names (`d.get(k)` on a
`dict[str, α]`; names are `List Char`). -/
def lookupName (m : List (List Char × α)) (k : List Char) : Option α :=
  match m with
  | [] => none
  | p :: rest => if p.1 = k then some p.2 else lookupName rest k

/-- Assignment `d[k] = v` on a `dict[str, α]` for a key already present:
updated in place, order preserved. -/
def updateName (m : List (List Char × α)) (k : List Char) (v : α) :
    List (List Char × α) :=
  match m with
  | [] => []
  | p :: rest => (if p.1 = k then (k, v) else p) :: updateName rest k v

/-- The state of the `Filtering` cog touched by `cog_load`
(`filtering.py` lines 37-68): the `dict` from list name to `FilterList`,
the `already_warned` set (kept as the list of names in warning order), and
the log of `log.warning` calls about unknown list names. -/
structure Filtering (Ctx : Type) where
  filter_lists : List (List Char × FilterList Ctx)
  already_warned : List (List Char)
  warnings : List (List Char)

/-- One iteration of `cog_load`'s loop (`filtering.py` lines 57-68) on a raw
filter-list record: a name already loaded gets `add_list` on its existing
`FilterList`; a registered-but-new name gets a fresh instance from the
`filter_list_types` registry (the registry module is outside the sources;
it is passed in as the list of registered names) and then `add_list`; an
unregistered name is warned about once and skipped. -/
def cog_load_step (registered : List (List Char)) (st : Filtering Ctx)
    (raw : ListData Ctx) : Filtering Ctx :=
  let nm := raw.name
  match lookupName st.filter_lists nm with
  | some fl =>
      { st with filter_lists := updateName st.filter_lists nm (fl.add_list raw) }
  | none =>
    if nm ∈ registered then
      { st with filter_lists := st.filter_lists ++ [(nm, FilterList.init.add_list raw)] }
    else if nm ∈ st.already_warned then st
    else { st with already_warned := st.already_warned ++ [nm],
                   warnings := st.warnings ++ [nm] }

/-- The loading loop of `Filtering.cog_load` (`filtering.py` lines 54-68),
starting from the empty cog state built by `__init__`. -/
def cog_load (registered : List (List Char)) (raws : List (ListData Ctx)) :
    Filtering Ctx :=
  raws.foldl (cog_load_step registered) ⟨[], [], []⟩

/-- One event's update inside `Filtering.subscribe`'s loop
(`filtering.py` lines 90-92): append the filter list to
`_subscriptions[event]` unless it is already there. -/
def subscribe_event [DecidableEq FL] (subs : Event → List FL) (filter_list : FL)
    (event : Event) : Event → List FL :=
  fun e =>
    if e = event then
      if filter_list ∈ subs event then subs event else subs event ++ [filter_list]
    else subs e

/-- `Filtering.subscribe` (`filtering.py` lines 77-92): subscribe a filter
list to each of the given events.  The subscription map
`_subscriptions : defaultdict[Event, list[FilterList]]` is modelled as a
total function to lists (a missing key reads as `[]`). -/
def subscribe [DecidableEq FL] (subs : Event → List FL) (filter_list : FL)
    (events : List Event) : Event → List FL :=
  events.foldl (fun s event => subscribe_event s filter_list event) subs

/-- `reduce(operator.or_, actions)` guarded by `if actions:`
(`filtering.py` lines 399-401): `none` on the empty list, otherwise the
left fold of the merge over the collected action settings. -/
def reduceOr : List ActionSettings → Option ActionSettings
  | [] => none
  | a :: rest => some (rest.foldl mergeActions a)

/-- One iteration of `_resolve_action`'s loop (`filtering.py` lines
392-397) for one subscribed filter list: `actions_for` yields an optional
`ActionSettings` and an optional message; a present actions value is
collected, a non-empty message is stored under the filter list. -/
def resolve_step (actionsFor : FL → Ctx → Option ActionSettings × Option (List Char))
    (ctx : Ctx) (acc : List ActionSettings × List (FL × List Char)) (filter_list : FL) :
    List ActionSettings × List (FL × List Char) :=
  let r := actionsFor filter_list ctx
  let acc1 := match r.1 with
    | some a => acc.1 ++ [a]
    | none => acc.1
  let acc2 := match r.2 with
    | some m => if m.isEmpty then acc.2 else acc.2 ++ [(filter_list, m)]
    | none => acc.2
  (acc1, acc2)

/-- `Filtering._resolve_action` (`filtering.py` lines 383-403): run
`actions_for` on every filter list subscribed to the context's event,
collect the returned action settings and the non-empty messages keyed by
filter list, and fold the collected actions with the merge (`none` when
nothing was collected).  `actions_for` is abstract here (each `FilterList`
subclass implements it); the subscription map and the context's event are
passed explicitly. -/
def _resolve_action (subs : Event → List FL)
    (actionsFor : FL → Ctx → Option ActionSettings × Option (List Char))
    (event : Event) (ctx : Ctx) :
    Option ActionSettings × List (FL × List Char) :=
  let collected := (subs event).foldl (resolve_step actionsFor ctx) ([], [])
  (reduceOr collected.1, collected.2)

/-- `Filtering._get_list_by_name` (`filtering.py` lines 463-473): exact
dict lookup of the name; on failure, if the name ends in `'s'`, retry with
the last character dropped (the user may have used a plural); on failure
again raise `BadArgument`, modelled as `.error` carrying the name. -/
def _get_list_by_name (fls : List (List Char × α)) (list_name : List Char) :
    Except (List Char) α :=
  match lookupName fls list_name with
  | some fl => .ok fl
  | none =>
    match (if list_name.getLast? = some 's'
           then lookupName fls list_name.dropLast else none) with
    | some fl => .ok fl
    | none => .error list_name

/-- `Filtering._get_filter_by_id` (`filtering.py` lines 491-496): scan
every filter list's per-list-type dicts for the id; return the filter with
its containing list name and list type, or `None` when no list holds the
id.  The two `ListType` keys are visited DENY first (their insertion
order in `filter_lists`). -/
def _get_filter_by_id (fls : List (List Char × FilterList Ctx)) (i : Nat) :
    Option (Filter Ctx × List Char × ListType) :=
  match fls with
  | [] => none
  | (nm, fl) :: rest =>
    match [ListType.DENY, ListType.ALLOW].findSome?
        (fun lt => (lookupA ((fl.filter_lists lt).getD []) i).map fun filt => (filt, nm, lt)) with
    | some r => some r
    | none => _get_filter_by_id rest i

/-! ## Helper lemmas -/

/-- A validations group has no failed setting exactly when every contained
setting evaluates to true on the context. -/
theorem evaluate_failed_empty_iff (vs : ValidationSettings Ctx) (ctx : Ctx) :
    (vs.evaluate ctx).2 = ∅ ↔ ∀ s ∈ vs.settings, s.evaluate ctx = true := by
  simp [ValidationSettings.evaluate, List.toFinset_eq_empty_iff, List.map_eq_nil_iff,
    List.filter_eq_nil_iff]

/-- A non-empty validations group none of whose settings failed has a
non-empty passed set. -/
theorem evaluate_passed_nonempty (vs : ValidationSettings Ctx) (ctx : Ctx)
    (hne : vs.settings ≠ []) (h : (vs.evaluate ctx).2 = ∅) :
    ((vs.evaluate ctx).1).Nonempty := by
  have hall : ∀ s ∈ vs.settings, s.evaluate ctx = true :=
    (evaluate_failed_empty_iff vs ctx).mp h
  obtain ⟨s, hs⟩ := List.exists_mem_of_ne_nil vs.settings hne
  refine ⟨s.name, ?_⟩
  show s.name ∈ (vs.evaluate ctx).1
  simp only [ValidationSettings.evaluate, List.mem_toFinset, List.mem_map]
  exact ⟨s, by simp [List.mem_filter, hs, hall s hs], rfl⟩

/-! ## Relevance algorithm: claims C1, C2, C5 -/

/-- Concrete input exhibiting C1's divergence: a default validations group
whose single setting 0 always fails. -/
def c1Defaults : ValidationSettings Unit := ⟨[⟨0, fun _ => false⟩]⟩

/-- Concrete input exhibiting C1's divergence: an overrides group whose
single setting 0 — the one failed by the default — always passes. -/
def c1Overrides : ValidationSettings Unit := ⟨[⟨0, fun _ => true⟩]⟩

/-- Concrete input exhibiting C1's divergence: a filter carrying the
overrides of `c1Overrides` whose content-matcher always triggers. -/
def c1Filter : Filter Unit :=
  ⟨1, ['x'], none, some c1Overrides, none, fun _ => true⟩

/-- Claim C1: at the failing input — `failed_by_default = {0}`, the
filter's overrides evaluate to `passed = {0}`, `failed = ∅`, and the filter
triggers — the claim (and the function's own docstring, "any failing
default is overridden by a successful override") requires the filter to be
included, but `filter_list_result` returns the empty list: line 107 of
`filter_list.py` tests `failed_by_default < passed`, Python's *strict*
subset, which is false when the two sets are equal.  The conjuncts assert
the code's output and, at the same input, each part of the claim's
inclusion condition (`failed = ∅`, `failed_by_default ⊆ passed`, the
filter triggers). -/
theorem c1_strict_subset_divergence :
    FilterList.filter_list_result () [c1Filter] c1Defaults = []
    ∧ (c1Defaults.evaluate ()).2 = (c1Overrides.evaluate ()).1
    ∧ (c1Defaults.evaluate ()).2 ⊆ (c1Overrides.evaluate ()).1
    ∧ (c1Overrides.evaluate ()).2 = ∅
    ∧ c1Filter.triggered_on () = true :=
  ⟨rfl, by decide, by decide, by decide, rfl⟩

/-- Claim C2: a filter that defines validation overrides is judged relevant
whenever neither the default validations nor its overrides produce any
failed setting, and is then returned by `filter_list_result` exactly when
its content-matcher triggers on the context — regardless of the content of
its overrides. -/
theorem trivially_passing_overrides_relevant (ctx : Ctx)
    (filters : List (Filter Ctx)) (defaults : ValidationSettings Ctx)
    (f : Filter Ctx) (vs : ValidationSettings Ctx)
    (hf : f ∈ filters) (hv : f.validations = some vs)
    (hd : (defaults.evaluate ctx).2 = ∅)
    (ho : (vs.evaluate ctx).2 = ∅) :
    f ∈ FilterList.filter_list_result ctx filters defaults ↔
      f.triggered_on ctx = true := by
  unfold FilterList.filter_list_result
  simp only [List.mem_filter, hf, true_and, hv, Option.getD_some]
  by_cases he : vs.settings.isEmpty
  · simp [he, hd]
  · have hne : vs.settings ≠ [] := by
      intro h0
      simp [h0] at he
    have hpass := evaluate_passed_nonempty vs ctx hne ho
    have hss : (defaults.evaluate ctx).2 ⊂ (vs.evaluate ctx).1 := by
      rw [hd]
      exact Finset.empty_ssubset.mpr hpass
    simp [he, ho, hss]

/-- Concrete filter for the C2 witness: one always-passing override over
setting 0, always triggering. -/
def c2Filter : Filter Unit :=
  ⟨2, ['y'], none, some ⟨[⟨0, fun _ => true⟩]⟩, none, fun _ => true⟩

/-- Witness for C2 at a concrete input: empty defaults and an
always-passing one-setting override. -/
theorem trivially_passing_overrides_relevant_witness :
    (c2Filter ∈ [c2Filter]
      ∧ c2Filter.validations = some ⟨[⟨0, fun _ => true⟩]⟩
      ∧ (((⟨[]⟩ : ValidationSettings Unit)).evaluate ()).2 = ∅
      ∧ ((⟨[⟨0, fun _ => true⟩]⟩ : ValidationSettings Unit).evaluate ()).2 = ∅)
    ∧ (c2Filter ∈ FilterList.filter_list_result () [c2Filter] ⟨[]⟩ ↔
        c2Filter.triggered_on () = true) :=
  ⟨⟨List.mem_singleton.mpr rfl, rfl, by decide, by decide⟩,
   trivially_passing_overrides_relevant () [c2Filter] ⟨[]⟩ c2Filter
     ⟨[⟨0, fun _ => true⟩]⟩ (List.mem_singleton.mpr rfl) rfl (by decide) (by decide)⟩

/-- Claim C5: a filter that defines no validation overrides (its overrides
group is absent or empty, i.e. Python-falsy) is included in
`filter_list_result` iff no default validation setting failed
(`default_answer`) and its own content-matcher triggers; and the empty
default validations group fails nothing, so under it such a filter is
included iff it triggers. -/
theorem no_overrides_follow_default (ctx : Ctx) (filters : List (Filter Ctx))
    (defaults : ValidationSettings Ctx) (f : Filter Ctx)
    (hf : f ∈ filters)
    (hno : (f.validations.getD ⟨[]⟩).settings.isEmpty = true) :
    (f ∈ FilterList.filter_list_result ctx filters defaults ↔
      ((defaults.evaluate ctx).2 = ∅ ∧ f.triggered_on ctx = true))
    ∧ ((⟨[]⟩ : ValidationSettings Ctx).evaluate ctx).2 = ∅ := by
  constructor
  · unfold FilterList.filter_list_result
    simp only [List.mem_filter, hf, true_and, hno, if_true]
    simp [Bool.and_eq_true, decide_eq_true_iff]
  · simp [ValidationSettings.evaluate]

/-- Concrete filter for the C5 witness: no overrides, always triggering. -/
def c5Filter : Filter Unit := ⟨3, ['z'], none, none, none, fun _ => true⟩

/-- Witness for C5 at a concrete input: an override-free filter under a
one-setting default group. -/
theorem no_overrides_follow_default_witness :
    (c5Filter ∈ [c5Filter]
      ∧ (c5Filter.validations.getD ⟨[]⟩).settings.isEmpty = true)
    ∧ ((c5Filter ∈ FilterList.filter_list_result () [c5Filter] ⟨[⟨0, fun _ => true⟩]⟩ ↔
        (((⟨[⟨0, fun _ => true⟩]⟩ : ValidationSettings Unit).evaluate ()).2 = ∅
          ∧ c5Filter.triggered_on () = true))
      ∧ ((⟨[]⟩ : ValidationSettings Unit).evaluate ()).2 = ∅) :=
  ⟨⟨List.mem_singleton.mpr rfl, rfl⟩,
   no_overrides_follow_default () [c5Filter] ⟨[⟨0, fun _ => true⟩]⟩ c5Filter
     (List.mem_singleton.mpr rfl) rfl⟩

/-! ## Merge operator algebra: claim C3 -/

/-- Per-name resolution is associative whenever the per-type combining rule
is. -/
theorem combineOpt_assoc (op : α → α → α)
    (hop : ∀ a b c, op (op a b) c = op a (op b c)) (x y z : Option α) :
    combineOpt op (combineOpt op x y) z = combineOpt op x (combineOpt op y z) := by
  cases x <;> cases y <;> cases z <;> simp [combineOpt, hop]

/-- Per-name resolution is commutative whenever the per-type combining rule
is. -/
theorem combineOpt_comm (op : α → α → α) (hop : ∀ a b, op a b = op b a)
    (x y : Option α) : combineOpt op x y = combineOpt op y x := by
  cases x <;> cases y <;> simp [combineOpt, hop]

/-- An unset setting is a right identity of per-name resolution. -/
theorem combineOpt_none_right (op : α → α → α) (x : Option α) :
    combineOpt op x none = x := by
  cases x <;> rfl

/-- Claim C3 (counterexample): the merge is not commutative — merging two
settings that only carry a message combines them by concatenation, and the
two orders concatenate in different orders. -/
theorem mergeActions_not_commutative :
    mergeActions ⟨none, none, some [0]⟩ ⟨none, none, some [1]⟩
      ≠ mergeActions ⟨none, none, some [1]⟩ ⟨none, none, some [0]⟩ := by
  decide

/-- Claim C3 (amended): the merge `⊕` on `ActionSettings` is associative
and the empty/no-op `ActionSettings` is a two-sided identity; it is
commutative on every component whose per-type combining rule is commutative
(boolean-OR flags, MAX durations) but not on concatenated messages, so the
Dispatcher's fold is order-independent only in those components. -/
theorem mergeActions_amended_laws (A B C : ActionSettings) :
    mergeActions (mergeActions A B) C = mergeActions A (mergeActions B C)
    ∧ mergeActions A noOpAction = A
    ∧ mergeActions noOpAction A = A
    ∧ (mergeActions A B).flag = (mergeActions B A).flag
    ∧ (mergeActions A B).duration = (mergeActions B A).duration := by
  obtain ⟨f1, d1, m1⟩ := A
  obtain ⟨f2, d2, m2⟩ := B
  obtain ⟨f3, d3, m3⟩ := C
  refine ⟨?_, ?_, ?_, ?_, ?_⟩
  · simp only [mergeActions, ActionSettings.mk.injEq]
    exact ⟨combineOpt_assoc _ (fun a b c => Bool.or_assoc a b c) _ _ _,
      combineOpt_assoc _ (fun a b c => Nat.max_assoc a b c) _ _ _,
      combineOpt_assoc _ (fun a b c => List.append_assoc a b c) _ _ _⟩
  · simp only [mergeActions, noOpAction, ActionSettings.mk.injEq]
    exact ⟨combineOpt_none_right _ _, combineOpt_none_right _ _, combineOpt_none_right _ _⟩
  · rfl
  · exact combineOpt_comm _ (fun a b => Bool.or_comm a b) _ _
  · exact combineOpt_comm _ (fun a b => Nat.max_comm a b) _ _

/-! ## Dispatcher aggregation: claim C4 -/

/-- The accumulation loop of `_resolve_action` appends exactly the present
action settings and the non-empty messages of the visited filter lists. -/
theorem resolve_foldl (actionsFor : FL → Ctx → Option ActionSettings × Option (List Char))
    (ctx : Ctx) (l : List FL) (acc1 : List ActionSettings) (acc2 : List (FL × List Char)) :
    l.foldl (resolve_step actionsFor ctx) (acc1, acc2) =
      (acc1 ++ l.filterMap (fun fl => (actionsFor fl ctx).1),
       acc2 ++ l.filterMap (fun fl =>
         match (actionsFor fl ctx).2 with
         | some m => if m.isEmpty then none else some (fl, m)
         | none => none)) := by
  induction l generalizing acc1 acc2 with
  | nil => simp
  | cons hd tl ih =>
    rcases h : actionsFor hd ctx with ⟨oa, om⟩
    simp only [List.foldl_cons, List.filterMap_cons, resolve_step, h]
    cases oa <;> cases om
    · simp [ih]
    · rename_i m
      by_cases he : m = [] <;> simp [he, ih]
    · simp [ih]
    · rename_i a m
      by_cases he : m = [] <;> simp [he, ih]

/-- `reduce(operator.or_, actions)` guarded by `if actions:` yields `None`
exactly on an empty collection. -/
theorem reduceOr_eq_none_iff (l : List ActionSettings) : reduceOr l = none ↔ l = [] := by
  cases l <;> simp [reduceOr]

/-- Claim C4: `_resolve_action` queries `actions_for` on exactly the filter
lists subscribed to the context's event; its first component is the merge
fold of the non-`None` action settings those lists returned, and is `None`
iff no subscribed list returned actions; its second component holds, keyed
by originating filter list, exactly the non-empty messages those lists
returned. -/
theorem resolve_action_correct (subs : Event → List FL)
    (actionsFor : FL → Ctx → Option ActionSettings × Option (List Char))
    (event : Event) (ctx : Ctx) :
    (_resolve_action subs actionsFor event ctx).1
        = reduceOr ((subs event).filterMap fun fl => (actionsFor fl ctx).1)
    ∧ ((_resolve_action subs actionsFor event ctx).1 = none ↔
        ∀ fl ∈ subs event, (actionsFor fl ctx).1 = none)
    ∧ (∀ fl m, (fl, m) ∈ (_resolve_action subs actionsFor event ctx).2 ↔
        (fl ∈ subs event ∧ (actionsFor fl ctx).2 = some m ∧ m.isEmpty = false)) := by
  have hf := resolve_foldl actionsFor ctx (subs event) [] []
  have h1 : (_resolve_action subs actionsFor event ctx).1
      = reduceOr ((subs event).filterMap fun fl => (actionsFor fl ctx).1) := by
    simp [_resolve_action, hf]
  refine ⟨h1, ?_, ?_⟩
  · rw [h1, reduceOr_eq_none_iff, List.filterMap_eq_nil_iff]
  · intro fl m
    have h2 : (_resolve_action subs actionsFor event ctx).2
        = (subs event).filterMap (fun fl =>
            match (actionsFor fl ctx).2 with
            | some m => if m.isEmpty then none else some (fl, m)
            | none => none) := by
      simp [_resolve_action, hf]
    rw [h2, List.mem_filterMap]
    constructor
    · rintro ⟨a, ha, hfa⟩
      rcases hm : (actionsFor a ctx).2 with _ | m'
      · simp [hm] at hfa
      · rcases he : m'.isEmpty
        · simp [hm, he] at hfa
          obtain ⟨rfl, rfl⟩ := hfa
          exact ⟨ha, hm, he⟩
        · simp [hm, he] at hfa
    · rintro ⟨hfl, hm, he⟩
      exact ⟨fl, hfl, by simp [hm, he]⟩

/-! ## Loading: claims C6, C7 -/

/-- `add_filter` on a loaded list type: a malformed record leaves the state
unchanged, a well-formed one inserts the filter under its id; the list-id
and defaults dicts are never touched. -/
theorem add_filter_loaded (s : FilterList Ctx) (fd : FilterData Ctx) (lt : ListType)
    (m : List (Nat × Filter Ctx)) (h : s.filter_lists lt = some m) :
    ((s.add_filter fd lt).toOption.getD s).filter_lists lt
      = some (match mkFilter fd with
          | none => m
          | some (i, filt) => insertA m i filt)
    ∧ ((s.add_filter fd lt).toOption.getD s).list_ids = s.list_ids
    ∧ ((s.add_filter fd lt).toOption.getD s).defaults = s.defaults := by
  rcases hm : mkFilter fd with _ | ⟨i, filt⟩
  · simp [FilterList.add_filter, hm, h, Except.toOption]
  · simp [FilterList.add_filter, hm, h, Except.toOption, setLT]

/-- `add_list`'s loop over the raw filter records builds exactly the fold of
the per-record insertions, and leaves list ids and defaults unchanged. -/
theorem add_list_loop (lt : ListType) (fds : List (FilterData Ctx)) :
    ∀ (s : FilterList Ctx) (m : List (Nat × Filter Ctx)), s.filter_lists lt = some m →
      ((fds.foldl (fun s fd => ((s.add_filter fd lt).toOption).getD s) s).filter_lists lt
        = some (fds.foldl (fun m fd => match mkFilter fd with
            | none => m
            | some (i, filt) => insertA m i filt) m)
      ∧ (fds.foldl (fun s fd => ((s.add_filter fd lt).toOption).getD s) s).list_ids = s.list_ids
      ∧ (fds.foldl (fun s fd => ((s.add_filter fd lt).toOption).getD s) s).defaults = s.defaults) := by
  induction fds with
  | nil =>
    intro s m h
    exact ⟨by simpa using h, rfl, rfl⟩
  | cons hd tl ih =>
    intro s m h
    obtain ⟨h1, h2, h3⟩ := add_filter_loaded s hd lt m h
    obtain ⟨g1, g2, g3⟩ := ih _ _ h1
    refine ⟨?_, ?_, ?_⟩
    · simpa using g1
    · simp only [List.foldl_cons]
      rw [g2, h2]
    · simp only [List.foldl_cons]
      rw [g3, h3]

/-- One `add_list` call stores the issued id and the parsed defaults for the
record's list type, and replaces that list type's filter dict with exactly
the filters built from the record's own data. -/
theorem add_list_spec (fl : FilterList Ctx) (ld : ListData Ctx) :
    (fl.add_list ld).list_ids ld.list_type = some ld.id
    ∧ (fl.add_list ld).defaults ld.list_type = some ld.settings
    ∧ (fl.add_list ld).filter_lists ld.list_type = some (buildFilters ld.filters) := by
  have hdef : fl.add_list ld
      = ld.filters.foldl (fun s fd => ((s.add_filter fd ld.list_type).toOption).getD s)
          (⟨setLT fl.list_ids ld.list_type (some ld.id),
            setLT fl.filter_lists ld.list_type (some []),
            setLT fl.defaults ld.list_type (some ld.settings)⟩ : FilterList Ctx) := rfl
  obtain ⟨g1, g2, g3⟩ := add_list_loop ld.list_type ld.filters
    (⟨setLT fl.list_ids ld.list_type (some ld.id),
      setLT fl.filter_lists ld.list_type (some []),
      setLT fl.defaults ld.list_type (some ld.settings)⟩ : FilterList Ctx)
    [] (by simp [setLT])
  rw [hdef]
  refine ⟨?_, ?_, ?_⟩
  · rw [g2]
    simp [setLT]
  · rw [g3]
    simp [setLT]
  · rw [g1]
    rfl

/-- Concrete input for C6: a first load of the DENY list type carrying one
well-formed filter with id 1. -/
def c6First : ListData Unit :=
  ⟨['a'], ListType.DENY, 5, ⟨noOpAction, ⟨[]⟩⟩,
   [⟨some 1, some ['x'], none, none, none, fun _ => true⟩]⟩

/-- Concrete input for C6: a second load of the same DENY list type with the
same issued id and no filters — in particular nothing that replaces filter
1. -/
def c6Second : ListData Unit :=
  ⟨['a'], ListType.DENY, 5, ⟨noOpAction, ⟨[]⟩⟩, []⟩

/-- Claim C6 (counterexample): after loading `c6First`, filter 1 is present;
after a second `add_list` for the same list type whose data does not
mention filter 1, the filter is gone — line 60 of `filter_list.py`
(`self.filter_lists[list_type] = \x7b\x7d`) resets the whole dict, so
previously loaded filters are lost even when not explicitly replaced. -/
theorem add_list_twice_loses_filters :
    (lookupA (((FilterList.init.add_list c6First).filter_lists ListType.DENY).getD []) 1).isSome
      = true
    ∧ lookupA ((((FilterList.init.add_list c6First).add_list c6Second).filter_lists
        ListType.DENY).getD []) 1 = none :=
  ⟨by decide, rfl⟩

/-- Claim C6 (amended): calling `add_list` twice for the same list type is
idempotent on the stored list-id and the later call's defaults win, but the
second call replaces the entire filter dict of that list type: afterwards
it holds exactly the filters built from the second call's data — the same
dict a load into a fresh `FilterList` would produce — and the first call's
filters are lost unless re-supplied. -/
theorem add_list_twice_amended (fl : FilterList Ctx) (ld ld' : ListData Ctx)
    (_h : ld.list_type = ld'.list_type) :
    ((fl.add_list ld).add_list ld').list_ids ld'.list_type = some ld'.id
    ∧ ((fl.add_list ld).add_list ld').defaults ld'.list_type = some ld'.settings
    ∧ ((fl.add_list ld).add_list ld').filter_lists ld'.list_type
        = some (buildFilters ld'.filters)
    ∧ ((fl.add_list ld).add_list ld').filter_lists ld'.list_type
        = (FilterList.init.add_list ld').filter_lists ld'.list_type := by
  obtain ⟨a1, a2, a3⟩ := add_list_spec (fl.add_list ld) ld'
  obtain ⟨_, _, b3⟩ := add_list_spec FilterList.init ld'
  exact ⟨a1, a2, a3, by rw [a3, b3]⟩

/-- Witness for the amended C6 at the concrete two-load input. -/
theorem add_list_twice_amended_witness :
    c6First.list_type = c6Second.list_type
    ∧ (((FilterList.init.add_list c6First).add_list c6Second).list_ids c6Second.list_type
        = some c6Second.id
      ∧ ((FilterList.init.add_list c6First).add_list c6Second).defaults c6Second.list_type
        = some c6Second.settings
      ∧ ((FilterList.init.add_list c6First).add_list c6Second).filter_lists c6Second.list_type
        = some (buildFilters c6Second.filters)
      ∧ ((FilterList.init.add_list c6First).add_list c6Second).filter_lists c6Second.list_type
        = (FilterList.init.add_list c6Second).filter_lists c6Second.list_type) :=
  ⟨rfl, add_list_twice_amended FilterList.init c6First c6Second rfl⟩

/-- Claim C7: on a `FilterList` with a loaded list type, `add_filter` with a
malformed record (the constructor rejects it: missing required field such
as `content` or `id`, or bad types) does not raise — the `TypeError` is
caught and logged — and returns the state completely unchanged, so every
previously loaded filter of that (list, list type) dict is intact. -/
theorem add_filter_malformed_skipped (fl : FilterList Ctx) (filter_data : FilterData Ctx)
    (list_type : ListType)
    (_hl : (fl.filter_lists list_type).isSome = true)
    (hm : mkFilter filter_data = none) :
    fl.add_filter filter_data list_type = .ok fl := by
  unfold FilterList.add_filter
  rw [hm]

/-- Concrete state for the C7 witness: DENY loaded with one filter already
present. -/
def c7State : FilterList Unit :=
  ⟨fun _ => none,
   fun lt => if lt = ListType.DENY
     then some [(4, ⟨4, ['w'], none, none, none, fun _ => true⟩)] else none,
   fun _ => none⟩

/-- Concrete malformed record for the C7 witness: both `id` and `content`
missing. -/
def c7Bad : FilterData Unit := ⟨none, none, none, none, none, fun _ => true⟩

/-- Witness for C7 at a concrete input: a loaded DENY dict holding filter 4
and a record missing its required fields. -/
theorem add_filter_malformed_skipped_witness :
    ((c7State.filter_lists ListType.DENY).isSome = true
      ∧ mkFilter c7Bad = none)
    ∧ c7State.add_filter c7Bad ListType.DENY = .ok c7State :=
  ⟨⟨rfl, rfl⟩, add_filter_malformed_skipped c7State c7Bad ListType.DENY rfl rfl⟩

/-! ## Name / id lookup: claim C8 -/

/-- `_get_filter_by_id` returns `None` when no list's per-type dict holds
the id. -/
theorem get_filter_by_id_none {Ctx : Type} (sts : List (List Char × FilterList Ctx)) (i : Nat)
    (h : ∀ p ∈ sts, ∀ lt, lookupA ((p.2.filter_lists lt).getD []) i = none) :
    _get_filter_by_id sts i = none := by
  induction sts with
  | nil => rfl
  | cons hd tl ih =>
    have h1 := h hd (List.mem_cons_self hd tl)
    have h2 : ∀ p ∈ tl, ∀ lt, lookupA ((p.2.filter_lists lt).getD []) i = none :=
      fun p hp => h p (List.mem_cons_of_mem hd hp)
    simp [_get_filter_by_id, List.findSome?, h1 ListType.DENY, h1 ListType.ALLOW, ih h2]

/-- Claim C8 (counterexample): list-name lookup is *not* case-insensitive —
with the list stored under `invites`, looking up `INVITES` raises
`BadArgument` instead of resolving: `_get_list_by_name` does two exact
(case-sensitive) dict lookups, the second after stripping a trailing
lowercase `'s'`, and never normalises case. -/
theorem get_list_by_name_case_sensitive :
    _get_list_by_name [(['i','n','v','i','t','e','s'], (0 : Nat))]
        ['I','N','V','I','T','E','S']
      = .error ['I','N','V','I','T','E','S'] := by
  rfl

/-- Claim C8 (amended): list-name lookup resolves a stored name by exact
(case-sensitive) match, and tolerates the plural form of a stored name by
retrying with the trailing `'s'` stripped; when neither lookup matches it
reports the failure by raising `BadArgument` (`.error`) rather than
crashing; and `_get_filter_by_id` with an id held by no list returns `None`
rather than raising. -/
theorem get_list_by_name_amended {α : Type} (fls : List (List Char × α))
    (q n : List Char) (v : α) :
    (lookupName fls q = some v → _get_list_by_name fls q = .ok v)
    ∧ (lookupName fls (n ++ ['s']) = none → lookupName fls n = some v →
        _get_list_by_name fls (n ++ ['s']) = .ok v)
    ∧ (lookupName fls q = none →
        (q.getLast? = some 's' → lookupName fls q.dropLast = none) →
        _get_list_by_name fls q = .error q)
    ∧ (∀ (Ctx : Type) (sts : List (List Char × FilterList Ctx)) (i : Nat),
        (∀ p ∈ sts, ∀ lt, lookupA ((p.2.filter_lists lt).getD []) i = none) →
        _get_filter_by_id sts i = none) := by
  refine ⟨?_, ?_, ?_, fun Ctx sts i h => get_filter_by_id_none sts i h⟩
  · intro h
    unfold _get_list_by_name
    rw [h]
  · intro h1 h2
    unfold _get_list_by_name
    rw [h1]
    have hg : (n ++ ['s']).getLast? = some 's' := List.getLast?_concat _
    have hd : (n ++ ['s']).dropLast = n := List.dropLast_concat
    rw [if_pos hg, hd, h2]
  · intro h1 h2
    unfold _get_list_by_name
    rw [h1]
    by_cases hq : q.getLast? = some 's'
    · rw [if_pos hq, h2 hq]
    · rw [if_neg hq]

/-- Witness for the amended C8: exact match, plural fallback, not-found
error, and unknown-id `None`, each at a concrete input. -/
theorem get_list_by_name_amended_witness :
    _get_list_by_name [(['a','b'], (7 : Nat))] ['a','b'] = .ok 7
    ∧ _get_list_by_name [(['a','b'], (7 : Nat))] (['a','b'] ++ ['s']) = .ok 7
    ∧ _get_list_by_name [(['a','b'], (7 : Nat))] ['c'] = .error ['c']
    ∧ _get_filter_by_id [(['a'], (FilterList.init : FilterList Unit))] 9 = none :=
  ⟨(get_list_by_name_amended [(['a','b'], 7)] ['a','b'] ['a','b'] 7).1 rfl,
   (get_list_by_name_amended [(['a','b'], 7)] ['c'] ['a','b'] 7).2.1 rfl rfl,
   (get_list_by_name_amended [(['a','b'], 7)] ['c'] ['a','b'] 7).2.2.1 rfl
     (fun h => absurd h (by decide)),
   (get_list_by_name_amended ([] : List (List Char × Nat)) ['c'] ['a'] 0).2.2.2
     Unit [(['a'], FilterList.init)] 9
     (fun p hp lt => by
       rw [List.mem_singleton] at hp
       subst hp
       rfl)⟩

/-! ## cog_load: claim C9 -/

/-- Unfolding lemma for name lookup on a non-empty dict. -/
theorem lookupName_cons (p : List Char × α) (rest : List (List Char × α)) (k : List Char) :
    lookupName (p :: rest) k = if p.1 = k then some p.2 else lookupName rest k := rfl

/-- In-place update of an existing key neither adds nor removes keys. -/
theorem lookupName_updateName_isSome (m : List (List Char × α)) (k k' : List Char) (v : α) :
    (lookupName (updateName m k v) k').isSome = (lookupName m k').isSome := by
  induction m with
  | nil => rfl
  | cons p rest ih =>
    simp only [updateName, lookupName_cons]
    by_cases hp : p.1 = k
    · rw [if_pos hp]
      by_cases hk : k = k'
      · subst hk
        simp [hp]
      · have hpk : ¬ p.1 = k' := fun h => hk (hp.symm.trans h)
        simp [hk, hpk, ih]
    · rw [if_neg hp]
      by_cases hk : p.1 = k'
      · simp [hk]
      · simp [hk, ih]

/-- Appending a fresh binding: lookups of present keys are unchanged, the
new key resolves to the new value. -/
theorem lookupName_append_single (m : List (List Char × α)) (k k' : List Char) (v : α) :
    lookupName (m ++ [(k, v)]) k' =
      match lookupName m k' with
      | some x => some x
      | none => if k = k' then some v else none := by
  induction m with
  | nil => rfl
  | cons p rest ih =>
    by_cases hp : p.1 = k' <;> simp [lookupName_cons, hp, ih]

/-- Invariant of the `cog_load` loop: the warning log equals the
`already_warned` set (in insertion order), names are warned about at most
once, and only registered names ever get a `FilterList`. -/
def CogInv (registered : List (List Char)) (st : Filtering Ctx) : Prop :=
  st.warnings = st.already_warned
  ∧ st.already_warned.Nodup
  ∧ (∀ k, (lookupName st.filter_lists k).isSome = true → k ∈ registered)

/-- One `cog_load` iteration preserves the loop invariant. -/
theorem cog_step_inv (registered : List (List Char)) (st : Filtering Ctx) (raw : ListData Ctx)
    (h : CogInv registered st) : CogInv registered (cog_load_step registered st raw) := by
  obtain ⟨h1, h2, h3⟩ := h
  unfold cog_load_step
  rcases hl : lookupName st.filter_lists raw.name with _ | fl <;> simp only [hl]
  · by_cases hr : raw.name ∈ registered
    · simp only [hr, if_true]
      refine ⟨h1, h2, ?_⟩
      intro k hk
      simp only [lookupName_append_single] at hk
      rcases hl2 : lookupName st.filter_lists k with _ | x
      · rw [hl2] at hk
        by_cases he : raw.name = k
        · exact he ▸ hr
        · simp [he] at hk
      · exact h3 k (by rw [hl2]; rfl)
    · by_cases hw : raw.name ∈ st.already_warned
      · simp only [hr, hw, if_false, if_true]
        exact ⟨h1, h2, h3⟩
      · simp only [hr, hw, if_false]
        refine ⟨by simp [h1], ?_, h3⟩
        simp [List.nodup_append, h2, hw]
  · refine ⟨h1, h2, ?_⟩
    intro k hk
    simp only [lookupName_updateName_isSome] at hk
    exact h3 k hk

/-- A name with a loaded `FilterList` still has one after any further
iteration. -/
theorem cog_step_mono_lookup (registered : List (List Char)) (st : Filtering Ctx)
    (raw : ListData Ctx) (k : List Char)
    (h : (lookupName st.filter_lists k).isSome = true) :
    (lookupName (cog_load_step registered st raw).filter_lists k).isSome = true := by
  unfold cog_load_step
  rcases hl : lookupName st.filter_lists raw.name with _ | fl <;> simp only [hl]
  · by_cases hr : raw.name ∈ registered
    · simp only [hr, if_true]
      rw [lookupName_append_single]
      rcases hl2 : lookupName st.filter_lists k with _ | x
      · rw [hl2] at h
        simp at h
      · rfl
    · by_cases hw : raw.name ∈ st.already_warned
      · simp only [hr, hw, if_false, if_true]
        exact h
      · simp only [hr, hw, if_false]
        exact h
  · rw [lookupName_updateName_isSome]
    exact h

/-- A warned-about name stays warned about. -/
theorem cog_step_mono_warned (registered : List (List Char)) (st : Filtering Ctx)
    (raw : ListData Ctx) (k : List Char) (h : k ∈ st.already_warned) :
    k ∈ (cog_load_step registered st raw).already_warned := by
  unfold cog_load_step
  rcases hl : lookupName st.filter_lists raw.name with _ | fl <;> simp only [hl]
  · by_cases hr : raw.name ∈ registered
    · simpa [hr] using h
    · by_cases hw : raw.name ∈ st.already_warned
      · simpa [hr, hw] using h
      · simp only [hr, hw, if_false]
        exact List.mem_append_left _ h
  · exact h

/-- Processing a record with a registered name loads (or keeps) its
`FilterList`. -/
theorem cog_step_known_loaded (registered : List (List Char)) (st : Filtering Ctx)
    (raw : ListData Ctx) (hr : raw.name ∈ registered) :
    (lookupName (cog_load_step registered st raw).filter_lists raw.name).isSome = true := by
  unfold cog_load_step
  rcases hl : lookupName st.filter_lists raw.name with _ | fl <;> simp only [hl]
  · simp only [hr, if_true]
    rw [lookupName_append_single, hl]
    simp
  · rw [lookupName_updateName_isSome, hl]
    rfl

/-- Processing a record with an unregistered name leaves that name in the
warned set (warning it now if it was not already). -/
theorem cog_step_unknown_warned (registered : List (List Char)) (st : Filtering Ctx)
    (raw : ListData Ctx) (hr : raw.name ∉ registered) (hinv : CogInv registered st) :
    raw.name ∈ (cog_load_step registered st raw).already_warned := by
  obtain ⟨h1, h2, h3⟩ := hinv
  have hl : lookupName st.filter_lists raw.name = none := by
    rcases hl2 : lookupName st.filter_lists raw.name with _ | fl
    · rfl
    · exact absurd (h3 raw.name (by rw [hl2]; rfl)) hr
  unfold cog_load_step
  simp only [hl, hr, if_false]
  by_cases hw : raw.name ∈ st.already_warned
  · simp only [hw, if_true]
  · simp only [hw, if_false]
    exact List.mem_append_right _ (List.mem_singleton.mpr rfl)

/-- The `cog_load` loop preserves the invariant. -/
theorem cog_foldl_inv (registered : List (List Char)) (raws : List (ListData Ctx)) :
    ∀ st, CogInv registered st →
      CogInv registered (raws.foldl (cog_load_step registered) st) := by
  induction raws with
  | nil => exact fun _ h => h
  | cons hd tl ih => exact fun st h => ih _ (cog_step_inv registered st hd h)

/-- The `cog_load` loop never unloads a loaded name. -/
theorem cog_foldl_mono_lookup (registered : List (List Char)) (raws : List (ListData Ctx)) :
    ∀ st (k : List Char), (lookupName st.filter_lists k).isSome = true →
      (lookupName (raws.foldl (cog_load_step registered) st).filter_lists k).isSome = true := by
  induction raws with
  | nil => exact fun _ _ h => h
  | cons hd tl ih => exact fun st k h => ih _ k (cog_step_mono_lookup registered st hd k h)

/-- The `cog_load` loop never forgets a warned name. -/
theorem cog_foldl_mono_warned (registered : List (List Char)) (raws : List (ListData Ctx)) :
    ∀ st (k : List Char), k ∈ st.already_warned →
      k ∈ (raws.foldl (cog_load_step registered) st).already_warned := by
  induction raws with
  | nil => exact fun _ _ h => h
  | cons hd tl ih => exact fun st k h => ih _ k (cog_step_mono_warned registered st hd k h)

/-- Every record with a registered name ends up loaded. -/
theorem cog_foldl_known (registered : List (List Char)) (raws : List (ListData Ctx)) :
    ∀ st (raw : ListData Ctx), raw ∈ raws → raw.name ∈ registered →
      (lookupName (raws.foldl (cog_load_step registered) st).filter_lists raw.name).isSome
        = true := by
  induction raws with
  | nil =>
    intro st raw hmem
    cases hmem
  | cons hd tl ih =>
    intro st raw hmem hr
    rcases List.mem_cons.mp hmem with rfl | hmem'
    · exact cog_foldl_mono_lookup registered tl _ _ (cog_step_known_loaded registered st raw hr)
    · exact ih _ raw hmem' hr

/-- Every record with an unregistered name leaves its name warned about. -/
theorem cog_foldl_unknown_warned (registered : List (List Char)) (raws : List (ListData Ctx)) :
    ∀ st (raw : ListData Ctx), raw ∈ raws → raw.name ∉ registered → CogInv registered st →
      raw.name ∈ (raws.foldl (cog_load_step registered) st).already_warned := by
  induction raws with
  | nil =>
    intro st raw hmem
    cases hmem
  | cons hd tl ih =>
    intro st raw hmem hr hinv
    rcases List.mem_cons.mp hmem with rfl | hmem'
    · exact cog_foldl_mono_warned registered tl _ _
        (cog_step_unknown_warned registered st raw hr hinv)
    · exact ih _ raw hmem' hr (cog_step_inv registered st hd hinv)

/-- Claim C9: after `cog_load`, the unknown-name warning log is
duplicate-free (so every distinct unknown name is warned about at most
once, no matter how many records carry it); a name not matching any
registered filter-list class never gets a `FilterList` (its records are
skipped entirely) yet is warned about when such a record occurs; and every
record with a registered name is still processed and loaded. -/
theorem cog_load_unknown_names (registered : List (List Char)) (raws : List (ListData Ctx))
    (nm : List Char) (h : nm ∉ registered) :
    (cog_load registered raws).warnings.Nodup
    ∧ lookupName (cog_load registered raws).filter_lists nm = none
    ∧ ((∃ raw ∈ raws, raw.name = nm) → nm ∈ (cog_load registered raws).warnings)
    ∧ (∀ raw ∈ raws, raw.name ∈ registered →
        (lookupName (cog_load registered raws).filter_lists raw.name).isSome = true) := by
  have hinv0 : CogInv registered (⟨[], [], []⟩ : Filtering Ctx) :=
    ⟨rfl, List.nodup_nil, fun k hk => by simp [lookupName] at hk⟩
  have hinv := cog_foldl_inv registered raws _ hinv0
  obtain ⟨h1, h2, h3⟩ := hinv
  refine ⟨?_, ?_, ?_, ?_⟩
  · show (raws.foldl (cog_load_step registered) ⟨[], [], []⟩).warnings.Nodup
    rw [h1]
    exact h2
  · rcases hl : lookupName (cog_load registered raws).filter_lists nm with _ | fl
    · rfl
    · exact absurd (h3 nm (by rw [show lookupName
        (raws.foldl (cog_load_step registered) ⟨[], [], []⟩).filter_lists nm
          = some fl from hl]; rfl)) h
  · rintro ⟨raw, hraw, hnm⟩
    show nm ∈ (raws.foldl (cog_load_step registered) ⟨[], [], []⟩).warnings
    rw [h1]
    subst hnm
    exact cog_foldl_unknown_warned registered raws _ raw hraw h hinv0
  · intro raw hraw hr
    exact cog_foldl_known registered raws _ raw hraw hr

/-- Concrete record with an unregistered name for the C9 witness. -/
def c9Unknown : ListData Unit := ⟨['u'], ListType.DENY, 0, ⟨noOpAction, ⟨[]⟩⟩, []⟩

/-- Concrete record with a registered name for the C9 witness. -/
def c9Known : ListData Unit := ⟨['a'], ListType.ALLOW, 1, ⟨noOpAction, ⟨[]⟩⟩, []⟩

/-- Witness for C9 at a concrete load: two records with the unknown name
and one with the registered name. -/
theorem cog_load_unknown_names_witness :
    (['u'] ∉ [['a']])
    ∧ ((cog_load [['a']] [c9Unknown, c9Unknown, c9Known]).warnings.Nodup
      ∧ lookupName (cog_load [['a']] [c9Unknown, c9Unknown, c9Known]).filter_lists ['u'] = none
      ∧ ((∃ raw ∈ [c9Unknown, c9Unknown, c9Known], raw.name = ['u']) →
          ['u'] ∈ (cog_load [['a']] [c9Unknown, c9Unknown, c9Known]).warnings)
      ∧ (∀ raw ∈ [c9Unknown, c9Unknown, c9Known], raw.name ∈ [['a']] →
          (lookupName (cog_load [['a']] [c9Unknown, c9Unknown, c9Known]).filter_lists
            raw.name).isSome = true)) :=
  ⟨by decide, cog_load_unknown_names [['a']] [c9Unknown, c9Unknown, c9Known] ['u'] (by decide)⟩

/-! ## Subscriptions: claim C10 -/

/-- One subscription step never removes a subscribed list from any
event. -/
theorem subscribe_event_mem_preserved [DecidableEq FL] (subs : Event → List FL)
    (filter_list x : FL) (event e : Event) (h : x ∈ subs e) :
    x ∈ subscribe_event subs filter_list event e := by
  unfold subscribe_event
  by_cases he : e = event
  · subst he
    by_cases hm : filter_list ∈ subs e
    · simpa [hm] using h
    · simp only [if_pos rfl, hm, if_false]
      exact List.mem_append_left _ h
  · simp [he, h]

/-- After one subscription step the filter list is subscribed to the
event. -/
theorem subscribe_event_self_mem [DecidableEq FL] (subs : Event → List FL)
    (filter_list : FL) (event : Event) :
    filter_list ∈ subscribe_event subs filter_list event event := by
  unfold subscribe_event
  simp only [if_pos rfl]
  by_cases hm : filter_list ∈ subs event
  · simp [hm]
  · simp [hm]

/-- One subscription step keeps every event's subscriber list
duplicate-free. -/
theorem subscribe_event_nodup [DecidableEq FL] (subs : Event → List FL)
    (filter_list : FL) (event : Event) (h : ∀ e, (subs e).Nodup) :
    ∀ e, (subscribe_event subs filter_list event e).Nodup := by
  intro e
  unfold subscribe_event
  by_cases he : e = event
  · simp only [he, if_pos rfl]
    by_cases hm : filter_list ∈ subs event
    · simpa [hm] using h event
    · simp [hm, List.nodup_append, h event]
  · simp [he, h e]

/-- One subscription step only ever appends to an event's subscriber
list. -/
theorem subscribe_event_extends [DecidableEq FL] (subs : Event → List FL)
    (filter_list : FL) (event e : Event) :
    ∃ t, subscribe_event subs filter_list event e = subs e ++ t := by
  unfold subscribe_event
  by_cases he : e = event
  · subst he
    by_cases hm : filter_list ∈ subs e
    · exact ⟨[], by simp [hm]⟩
    · exact ⟨[filter_list], by simp [hm]⟩
  · exact ⟨[], by simp [he]⟩

/-- A subscription step for an already-subscribed pair is a no-op. -/
theorem subscribe_event_id_of_mem [DecidableEq FL] (subs : Event → List FL)
    (filter_list : FL) (event : Event) (h : filter_list ∈ subs event) :
    subscribe_event subs filter_list event = subs := by
  funext e
  unfold subscribe_event
  by_cases he : e = event
  · simp [he, h]
  · simp [he]

/-- `subscribe` never removes a subscribed list from any event. -/
theorem subscribe_mem_preserved [DecidableEq FL] (filter_list x : FL) (e : Event) :
    ∀ (events : List Event) (subs : Event → List FL), x ∈ subs e →
      x ∈ subscribe subs filter_list events e := by
  intro events
  induction events with
  | nil => exact fun _ h => h
  | cons hd tl ih =>
    exact fun subs h =>
      ih _ (subscribe_event_mem_preserved subs filter_list x hd e h)

/-- After `subscribe`, the filter list is subscribed to each given
event. -/
theorem subscribe_mem_of_mem_events [DecidableEq FL] (filter_list : FL) :
    ∀ (events : List Event) (subs : Event → List FL) (ev : Event), ev ∈ events →
      filter_list ∈ subscribe subs filter_list events ev := by
  intro events
  induction events with
  | nil =>
    intro subs ev h
    cases h
  | cons hd tl ih =>
    intro subs ev hmem
    rcases List.mem_cons.mp hmem with rfl | hmem'
    · exact subscribe_mem_preserved filter_list filter_list ev tl _
        (subscribe_event_self_mem subs filter_list ev)
    · exact ih _ ev hmem'

/-- `subscribe` keeps every event's subscriber list duplicate-free. -/
theorem subscribe_nodup [DecidableEq FL] (filter_list : FL) :
    ∀ (events : List Event) (subs : Event → List FL), (∀ e, (subs e).Nodup) →
      ∀ e, (subscribe subs filter_list events e).Nodup := by
  intro events
  induction events with
  | nil => exact fun _ h => h
  | cons hd tl ih =>
    exact fun subs h => ih _ (subscribe_event_nodup subs filter_list hd h)

/-- `subscribe` only ever appends to an event's subscriber list. -/
theorem subscribe_extends [DecidableEq FL] (filter_list : FL) :
    ∀ (events : List Event) (subs : Event → List FL) (e : Event),
      ∃ t, subscribe subs filter_list events e = subs e ++ t := by
  intro events
  induction events with
  | nil => exact fun subs e => ⟨[], by simp [subscribe]⟩
  | cons hd tl ih =>
    intro subs e
    obtain ⟨t1, h1⟩ := subscribe_event_extends subs filter_list hd e
    obtain ⟨t2, h2⟩ := ih (subscribe_event subs filter_list hd) e
    exact ⟨t1 ++ t2, by rw [show subscribe subs filter_list (hd :: tl) e
      = subscribe (subscribe_event subs filter_list hd) filter_list tl e from rfl,
      h2, h1, List.append_assoc]⟩

/-- `subscribe` for a pair already subscribed at every given event is a
no-op on the whole subscription map. -/
theorem subscribe_id_of_mem [DecidableEq FL] (filter_list : FL) :
    ∀ (events : List Event) (subs : Event → List FL),
      (∀ ev ∈ events, filter_list ∈ subs ev) →
      subscribe subs filter_list events = subs := by
  intro events
  induction events with
  | nil => exact fun _ _ => rfl
  | cons hd tl ih =>
    intro subs h
    have hhd : filter_list ∈ subs hd := h hd (List.mem_cons_self hd tl)
    show subscribe (subscribe_event subs filter_list hd) filter_list tl = subs
    rw [subscribe_event_id_of_mem subs filter_list hd hhd]
    exact ih subs (fun ev hev => h ev (List.mem_cons_of_mem hd hev))

/-- Claim C10: starting from a subscription map whose per-event lists are
duplicate-free (as the dispatcher's initially empty map is), `subscribe`
keeps every event's list duplicate-free — it appends the filter list only
if not already present, so each `FilterList` occurs at most once per
event; repeating the same `subscribe` call leaves the subscription state
identical to calling it once; and existing subscriptions are never removed
or reordered (each event's old list stays as an unchanged initial
segment). -/
theorem subscribe_correct [DecidableEq FL] (subs : Event → List FL) (filter_list : FL)
    (events : List Event) (h : ∀ e, (subs e).Nodup) :
    (∀ e, ((subscribe subs filter_list events) e).Nodup)
    ∧ subscribe (subscribe subs filter_list events) filter_list events
        = subscribe subs filter_list events
    ∧ (∀ e, ∃ t, (subscribe subs filter_list events) e = subs e ++ t) := by
  refine ⟨subscribe_nodup filter_list events subs h, ?_,
    fun e => subscribe_extends filter_list events subs e⟩
  exact subscribe_id_of_mem filter_list events _
    (fun ev hev => subscribe_mem_of_mem_events filter_list events subs ev hev)

/-- Witness for C10: subscribing filter list `0` to `MESSAGE` on the empty
subscription map. -/
theorem subscribe_correct_witness :
    (∀ e : Event, ((fun _ => ([] : List Nat)) e).Nodup)
    ∧ ((∀ e, ((subscribe (fun _ => ([] : List Nat)) 0 [Event.message]) e).Nodup)
      ∧ subscribe (subscribe (fun _ => ([] : List Nat)) 0 [Event.message]) 0 [Event.message]
          = subscribe (fun _ => ([] : List Nat)) 0 [Event.message]
      ∧ (∀ e, ∃ t, (subscribe (fun _ => ([] : List Nat)) 0 [Event.message]) e
          = (fun _ => ([] : List Nat)) e ++ t)) :=
  ⟨fun _ => List.nodup_nil,
   subscribe_correct (fun _ => ([] : List Nat)) 0 [Event.message] (fun _ => List.nodup_nil)⟩

end Bot
